import Mathlib

/-!
Shallow embedding in Lean 4 of the candidate-scoring, decision and
workflow logic of the ScrapingLikeBoss image pipeline
(`image_processor.py`, `clip_validator.py`, `clip_service.py`,
`database.py`), together with theorems settling the frozen claims.

Modelling conventions:
* Python `float` is modelled by `ℚ` (exact arithmetic).
* Python strings are Lean `String`; `a in b` (substring test) is `strSub`;
  `str.lower()` is `strLower` (per-character ASCII case folding, the same
  fold `String.toLower` performs, implemented structurally).
* Fallible computations are `Except String _` / `Option _`.
* External oracles (thumbnail downloads, CLIP cosine similarities) are
  explicit function parameters.
-/

namespace ScrapingLikeBoss

/-- `listPrefixOf n h` : the char list `n` is a prefix of `h`. -/
def listPrefixOf : List Char → List Char → Bool
  | [], _ => true
  | _ :: _, [] => false
  | a :: xs, b :: ys => a == b && listPrefixOf xs ys

/-- `listSub n h` : the char list `n` occurs contiguously inside `h`
(Python `n in h` for strings). -/
def listSub (n : List Char) : List Char → Bool
  | [] => n.isEmpty
  | b :: t => listPrefixOf n (b :: t) || listSub n t

/-- Python substring test `n in h` on strings. -/
def strSub (n h : String) : Bool := listSub n.data h.data

/-- Python `str.lower()`: per-character case folding (same fold as
`Char.toLower`), implemented structurally so it evaluates in the kernel. -/
def strLower (s : String) : String := String.mk (s.data.map Char.toLower)

/-- Python truthiness-based `a or b` on optional strings:
`None` and `''` are falsy. -/
def pyOr (a b : Option String) : Option String :=
  match a with
  | some s => if s = "" then b else some s
  | none => b

/-- Python `str.split()` : split on whitespace runs, dropping empties. -/
def splitWs (s : String) : List String :=
  (s.split Char.isWhitespace).filter (fun w => w ≠ "")

/-! ## Size extraction (`_extract_size_value`, image_processor.py 573-591)

The Python code runs `re.search(r"(\d+(?:\.\d+)?)\s*(kg|g|l|ml|L)", text)`.
For this pattern, greedy matching without backtracking is exact: after a
maximal digit run the next char is a non-digit, so no shorter run can let
the fraction / unit alternatives succeed.  `re.search` tries successive
start offsets left to right. -/

/-- Maximal leading digit run of a char list, with the remainder. -/
def takeDigits : List Char → List Char × List Char
  | [] => ([], [])
  | c :: rest =>
    if c.isDigit then
      let p := takeDigits rest
      (c :: p.1, p.2)
    else ([], c :: rest)

/-- Regex alternation `(kg|g|l|ml|L)` tried at the head of the list, in
the pattern's left-to-right order. -/
def unitAt : List Char → Option String
  | 'k' :: 'g' :: _ => some "kg"
  | 'g' :: _ => some "g"
  | 'l' :: _ => some "l"
  | 'm' :: 'l' :: _ => some "ml"
  | 'L' :: _ => some "L"
  | _ => none

/-- Attempt the size pattern at the current position: digits, optional
`.digits`, optional whitespace, then a unit.  Returns
(integer digits, fraction digits, unit). -/
def matchAtPos (cs : List Char) : Option (List Char × List Char × String) :=
  let p := takeDigits cs
  if p.1 = [] then none
  else
    let fr : List Char × List Char :=
      match p.2 with
      | c :: r2 =>
        if c = '.' then
          let q := takeDigits r2
          if q.1 = [] then ([], p.2) else (q.1, q.2)
        else ([], p.2)
      | [] => ([], p.2)
    let rest3 := fr.2.dropWhile Char.isWhitespace
    match unitAt rest3 with
    | some u => some (p.1, fr.1, u)
    | none => none

/-- `re.search` for the size pattern: first matching start offset,
scanning left to right. -/
def searchSize : List Char → Option (List Char × List Char × String)
  | [] => none
  | c :: rest =>
    match matchAtPos (c :: rest) with
    | some m => some m
    | none => searchSize rest

/-- Natural number denoted by a digit run. -/
def digitsVal (ds : List Char) : ℕ :=
  ds.foldl (fun a c => a * 10 + (c.toNat - '0'.toNat)) 0

/-- Rational value of `float(intDigits.fracDigits)`. -/
def numVal (ds fs : List Char) : ℚ :=
  (digitsVal ds : ℚ) + (digitsVal fs : ℚ) / ((10 : ℚ) ^ fs.length)

/-- `_extract_size_value` (image_processor.py 573-591): normalized size in
grams/milliliters; `kg` and `l` scale by 1000, `g` and `ml` stay as-is. -/
def extract_size_value (text : String) : Option ℚ :=
  match searchSize text.data with
  | none => none
  | some (ds, fs, u) =>
    let value := numVal ds fs
    let unit := (strLower u)
    if unit = "kg" then some (value * 1000)
    else if unit = "l" then some (value * 1000)
    else if unit = "ml" then some value
    else if unit = "g" then some value
    else none

/-! ## Data model -/

/-- Product fields read by the scorer and validator.  All are Python
strings (missing / `None` values are already collapsed to `''` by the
`product.get(..., '') or ''` idiom at the use sites). -/
structure Product where
  title : String
  brand : String
  variant_sku : String
  variant_title : String
  variant_option : String
  barcode : String
deriving DecidableEq

/-- One raw search-result record (`result.get(...)` fields). `title`,
`snippet`, `source` default to `''`; the three URL fields may be absent. -/
structure SearchResult where
  title : String
  snippet : String
  source : String
  original : Option String
  link : Option String
  thumbnail : Option String
deriving DecidableEq

/-! ## Variant-aware scorer
(`evaluate_results_with_variant_matching`, image_processor.py 463-571) -/

/-- The fixed critical-variant vocabulary of the variant-aware scorer. -/
def critical_variants : List String :=
  ["vetkoek", "flapjack", "pancake", "waffle", "scone", "muffin"]

/-- `if len(barcode) > 6 and barcode in result_title + result_snippet:
score += 40` (line 487-489). -/
def barcodeScoreOf (barcode rtitle rsnippet : String) : ℚ :=
  if barcode.length > 6 ∧ strSub barcode (rtitle ++ rsnippet) then 40 else 0

/-- Brand matching (lines 491-496): `+25` if the brand is in the result
title, else `+15` if it is in the source domain. -/
def brandScoreOf (brand rtitle rsource : String) : ℚ :=
  if brand ≠ "" then
    if strSub brand rtitle then 25
    else if strSub brand rsource then 15
    else 0
  else 0

/-- Variant matching (lines 498-521): for each critical-variant term
occurring in the product's variant fields, `+30` if the term is in the
result title, else `-40` if some *other* critical term is; then `+20` /
`+10` for generic variant / variant-option substring matches. -/
def variantScoreOf (variant variantOpt rtitle : String) : ℚ :=
  if variant ≠ "" ∨ variantOpt ≠ "" then
    let cvScore := critical_variants.foldl (fun acc cv =>
      if strSub cv variant ∨ strSub cv variantOpt then
        if strSub cv rtitle then acc + 30
        else if critical_variants.any (fun o => o ≠ cv ∧ strSub o rtitle) then acc - 40
        else acc
      else acc) 0
    let g1 : ℚ := if variant ≠ "" ∧ strSub variant rtitle then 20 else 0
    let g2 : ℚ :=
      if variantOpt ≠ "" ∧ variantOpt ≠ variant ∧ strSub variantOpt rtitle then 10 else 0
    cvScore + g1 + g2
  else 0

/-- Size matching (lines 523-531): both sizes extracted and nonzero
(Python truthiness of `float`), then `+15` within tolerance percent,
`-10` outside. -/
def sizeScoreOf (tol : ℚ) (ptitle rtitle : String) : ℚ :=
  match extract_size_value ptitle, extract_size_value rtitle with
  | some ps, some rs =>
    if ps ≠ 0 ∧ rs ≠ 0 then
      if |ps - rs| / ps * 100 ≤ tol then 15 else -10
    else 0
  | _, _ => 0

/-- `TRUSTED_RETAILERS['tier1']` (image_processor.py 142-146). -/
def tier1_retailers : List String :=
  ["shoprite.co.za", "checkers.co.za", "pnp.co.za", "makro.co.za"]

/-- `TRUSTED_RETAILERS['tier2']`. -/
def tier2_retailers : List String :=
  ["takealot.com", "game.co.za", "woolworths.co.za", "clicks.co.za"]

/-- Retailer trust bonus (lines 533-538): first matching tier in dict
order wins; `tier3` has an empty list so its `+5` is never awarded. -/
def tierBonusOf (retailer : String) : ℚ :=
  if tier1_retailers.contains retailer then 15
  else if tier2_retailers.contains retailer then 10
  else 0

/-- Learned adjustment (lines 541-544):
`self.confidence_adjustments.get(source, {})` followed by a
`'confidence_modifier'` lookup is modelled as a partial map from
(lowercased) source to modifier; a missing entry contributes 0. -/
def modifierOf (cadj : String → Option ℚ) (rsource : String) : ℚ :=
  match cadj rsource with
  | some m => m
  | none => 0

/-- Variant sub-score of one result for one product (the value stored as
`variant_match_score`). -/
def evalVariantScore (p : Product) (r : SearchResult) : ℚ :=
  variantScoreOf (strLower p.variant_title) (strLower p.variant_option) (strLower r.title)

/-- Total score of one result: the sequential `score += ...` additions of
lines 484-544, with all fields lowercased as at lines 469-476 / 481-483. -/
def evalScore (tol : ℚ) (cadj : String → Option ℚ) (retailer : String)
    (p : Product) (r : SearchResult) : ℚ :=
  barcodeScoreOf p.barcode (strLower r.title) (strLower r.snippet)
  + brandScoreOf (strLower p.brand) (strLower r.title) (strLower r.source)
  + evalVariantScore p r
  + sizeScoreOf tol (strLower p.title) (strLower r.title)
  + tierBonusOf retailer
  + modifierOf cadj (strLower r.source)

/-- The tracked best result: the raw candidate, its running score and its
variant sub-score (`variant_match_score`). -/
structure BestInfo where
  result : SearchResult
  score : ℚ
  variantScore : ℚ
deriving DecidableEq

/-- `confidence` field of the winning record: `min(max(score, 0), 100)`
(line 559). -/
def winnerConfidence (b : BestInfo) : ℚ := min (max b.score 0) 100

/-- One iteration of the `if score > best_score:` tracking loop
(lines 546-564). -/
def selectStep (tol : ℚ) (cadj : String → Option ℚ) (retailer : String) (p : Product)
    (acc : ℚ × Option BestInfo) (r : SearchResult) : ℚ × Option BestInfo :=
  let s := evalScore tol cadj retailer p r
  if s > acc.1 then (s, some ⟨r, s, evalVariantScore p r⟩) else acc

/-- The full tracking loop, starting from `best_score = 0`,
`best_result = None`. -/
def selectBest (tol : ℚ) (cadj : String → Option ℚ) (retailer : String) (p : Product)
    (results : List SearchResult) : ℚ × Option BestInfo :=
  results.foldl (selectStep tol cadj retailer p) (0, none)

/-- `evaluate_results_with_variant_matching` (image_processor.py 463-571):
empty input returns `None`; otherwise run the tracking loop, reject if
the best result's variant sub-score is below `-20`, else return the best
result only when `best_score > 35`. -/
def evaluate_results_with_variant_matching (tol : ℚ) (cadj : String → Option ℚ)
    (retailer : String) (p : Product) (results : List SearchResult) : Option BestInfo :=
  if results.isEmpty then none
  else
    match (selectBest tol cadj retailer p results).2 with
    | some b =>
      if b.variantScore < -20 then none
      else if (selectBest tol cadj retailer p results).1 > 35 then some b else none
    | none => none

/-! ## Decision rules -/

/-- Post-download validator actions. -/
inductive VAction where
  | auto_approve
  | manual_review
  | auto_reject
deriving DecidableEq

/-- Pre-download routing statuses (`_download_and_save_image`). -/
inductive ImgStatus where
  | approved
  | pending
  | declined
deriving DecidableEq

/-- The two decision thresholds from `_load_confidence_adjustments`. -/
structure ConfidenceThresholds where
  auto_approve : ℚ
  needs_review : ℚ
deriving DecidableEq

/-- `confidence_thresholds` built by `_load_confidence_adjustments`
(image_processor.py 184-207): `auto_approve = 70`, `needs_review = 30`. -/
def loadedConfidenceThresholds : ConfidenceThresholds := ⟨70, 30⟩

/-- Pre-download routing (image_processor.py 881-890): confidence at or
above the auto-approve threshold goes to `approved`, else at or above the
needs-review threshold to `pending`, else `declined`. -/
def downloadRouteStatus (th : ConfidenceThresholds) (confidence : ℚ) : ImgStatus :=
  if confidence ≥ th.auto_approve then .approved
  else if confidence ≥ th.needs_review then .pending
  else .declined

/-- Validator threshold `self.thresholds['auto_approve'] = 0.60`
(clip_validator.py 64-69). -/
def validatorAutoApprove : ℚ := 3/5

/-- Validator threshold `self.thresholds['needs_review'] = 0.30`. -/
def validatorNeedsReview : ℚ := 3/10

/-- The generic three-way decision rule shared by both sites. -/
def threeWay (autoT reviewT confidence : ℚ) : VAction :=
  if confidence ≥ autoT then .auto_approve
  else if confidence ≥ reviewT then .manual_review
  else .auto_reject

/-- Map a validator action to the pre-download routing status it
corresponds to. -/
def statusOfAction : VAction → ImgStatus
  | .auto_approve => .approved
  | .manual_review => .pending
  | .auto_reject => .declined

/-- Inputs to `_adjust_final_decision` (clip_validator.py 466-499):
incoming confidence, number of flagged text issues, quality score and
the professional flag (`None` when quality assessment errored). -/
structure VResultIn where
  confidence : ℚ
  text_issues : ℕ
  quality_score : ℚ
  is_professional : Option Bool
deriving DecidableEq

/-- The confidence adjustments of `_adjust_final_decision` (lines
470-485): `-0.1` per text issue when any, `-0.15` when quality `< 50`,
`-0.1` when explicitly not professional. -/
def adjustedConfidence (r : VResultIn) : ℚ :=
  let c1 := if r.text_issues > 0 then r.confidence - (1/10) * r.text_issues else r.confidence
  let c2 := if r.quality_score < 50 then c1 - 3/20 else c1
  if r.is_professional = some false then c2 - 1/10 else c2

/-- The re-evaluated action of `_adjust_final_decision` (lines 488-495). -/
def adjust_final_decision_action (r : VResultIn) : VAction :=
  let confidence := adjustedConfidence r
  if confidence ≥ validatorAutoApprove then .auto_approve
  else if confidence ≥ validatorNeedsReview then .manual_review
  else .auto_reject

/-! ## Post-download validator (`CLIPValidator.validate_image`) -/

/-- The validation result fields relevant to the claims. -/
structure ValidationResult where
  valid : Bool
  confidence : ℚ
  reason : String
  action : VAction
deriving DecidableEq

/-- `validate_image` (clip_validator.py 76-152): the whole body — opening
and decoding the image, CLIP scoring, OCR, quality assessment and the
final adjustment — is a fallible computation (`body`); its `except`
handler maps any raised exception `e` to the fixed zero-confidence
manual-review result with a validation-error reason. -/
def validate_image (body : Except String ValidationResult) : ValidationResult :=
  match body with
  | .ok r => r
  | .error e =>
    { valid := false
      confidence := 0
      reason := "Validation error: " ++ e
      action := .manual_review }

/-! ## OCR text detection (`CLIPValidator._detect_text`, 340-393) -/

/-- The pure core of `_detect_text` after the OCR reader returned the
text segments: the (match flag, confidence boost) pair accumulated by the
sequential checks, with the final `min(confidence_boost, 0.3)` cap.
`detected_text` is the space-join of the segments, lowercased. -/
def detect_text_core (p : Product) (segments : List String) : Bool × ℚ :=
  let detected := (strLower (String.intercalate " " segments))
  let brand := (strLower p.brand)
  let title := (strLower p.title)
  let variant := (strLower p.variant_option)
  let variantTitle := (strLower p.variant_title)
  let st0 : Bool × ℚ := (false, 0)
  let st1 := if brand ≠ "" ∧ strSub brand detected then (true, st0.2 + 3/20) else st0
  let st2 := if variant ≠ "" ∧ strSub variant detected then (true, st1.2 + 1/10) else st1
  let st3 :=
    if variantTitle ≠ "" ∧ strSub variantTitle detected then (true, st2.2 + 1/10) else st2
  let titleWords := (splitWs title).filter (fun w => w.length > 3)
  let matchingWords := (titleWords.filter (fun w => strSub w detected)).length
  let st4 :=
    if matchingWords ≥ 2 then (true, st3.2 + (1/20) * (min matchingWords 3 : ℕ)) else st3
  (st4.1, min st4.2 (3/10))

/-- The `confidence_boost` value returned by `_detect_text`. -/
def detect_text_boost (p : Product) (segments : List String) : ℚ :=
  (detect_text_core p segments).2

/-! ## Semantic re-ranker
(`CLIPService.rank_thumbnails`, clip_service.py 112-130, and
`_rank_results_with_clip`, image_processor.py 593-638)

Thumbnail bytes are modelled as `List ℕ`; the CLIP model is an external
oracle `sim : Bytes → String → ℚ` giving the cosine similarity (in
`[-1,1]`) of an image against one description. -/

/-- Raw image bytes. -/
abbrev Bytes := List ℕ

/-- `rank_thumbnails`: score each image as the maximum over the
description texts of the cosine similarity rescaled from `[-1,1]` to
`[0,1]`, then return the image indices best-first (`torch.argsort`
descending, modelled as a stable descending insertion sort). -/
def rank_thumbnails (sim : Bytes → String → ℚ) (texts : List String)
    (thumbs : List Bytes) : List ℕ :=
  if thumbs.isEmpty then []
  else
    let score : Bytes → ℚ := fun b => ((texts.map (fun t => (sim b t + 1) / 2)).max?).getD 0
    (List.range thumbs.length).insertionSort
      (fun i j => score (thumbs.getD i []) ≥ score (thumbs.getD j []))

/-- `r.get('thumbnail') or r.get('original') or r.get('link')` with
Python truthiness (line 600). -/
def thumbUrlOf (r : SearchResult) : Option String :=
  pyOr r.thumbnail (pyOr r.original r.link)

/-- The `(urls, idx_map)` collection loop of lines 598-604, as a list of
(url, original index) pairs. -/
def collectUrls (results : List SearchResult) : List (String × ℕ) :=
  results.enum.filterMap (fun ir => (thumbUrlOf ir.2).map (fun u => (u, ir.1)))

/-- `_rank_results_with_clip` (image_processor.py 593-638): collect
thumbnail URLs, download them (`dl`; a failed or empty download is
filtered out by the Python truthiness check on the bytes), rank the
successful thumbnails with CLIP, map the rank indices back through
`idx_map`, and append any results not yet placed, in original order. -/
def rank_results_with_clip (dl : String → Option Bytes) (sim : Bytes → String → ℚ)
    (texts : List String) (results : List SearchResult) : List SearchResult :=
  let pairs := collectUrls results
  let urls := pairs.map Prod.fst
  let idx_map := pairs.map Prod.snd
  if urls.isEmpty then results
  else
    let thumbs := urls.filterMap (fun u =>
      match dl u with
      | some b => if b = [] then none else some b
      | none => none)
    if thumbs.isEmpty then results
    else
      let order := rank_thumbnails sim texts thumbs
      if order.isEmpty then results
      else
        let ordered_idx := order.filterMap (fun o =>
          if h : o < idx_map.length then some (idx_map.get ⟨o, h⟩) else none)
        let missing := (List.range results.length).filter (fun i => ¬ ordered_idx.contains i)
        (ordered_idx ++ missing).filterMap (fun i => results.get? i)

/-! ## Database clear operation (`ImageDatabase.clear_images`, 558-615) -/

/-- One `products` row, restricted to the columns `clear_images` touches
or that the claims constrain. -/
structure DBRow where
  variant_sku : String
  image_status : Option String
  downloaded_image_path : Option String
  confidence : Option ℚ
  source_retailer : Option String
deriving DecidableEq

/-- Database plus filesystem state: rows and the set of existing files. -/
structure DBState where
  rows : List DBRow
  files : List String
deriving DecidableEq

/-- One iteration of the file-deletion loop:
`if path and os.path.exists(path): os.remove(path); count += 1`. -/
def deleteStep (acc : List String × ℕ) (p : Option String) : List String × ℕ :=
  match p with
  | some path =>
    if path ≠ "" ∧ path ∈ acc.1 then (acc.1.filter (fun f => f ≠ path), acc.2 + 1)
    else acc
  | none => acc

/-- `clear_images` (database.py 558-615).  For `'pending'`: delete the
files of pending rows, then
`UPDATE products SET downloaded_image_path = NULL,
image_status = 'not_processed' WHERE image_status = 'pending'`.
`'declined'` nulls only the path; `'all_unapproved'` treats both. -/
def clear_images (s : DBState) (clear_type : String) : DBState × ℕ :=
  if clear_type = "declined" then
    let sel := s.rows.filter (fun r => r.image_status = some "declined")
    let fc := (sel.map (fun r => r.downloaded_image_path)).foldl deleteStep (s.files, 0)
    let rows' := s.rows.map (fun r =>
      if r.image_status = some "declined" then { r with downloaded_image_path := none }
      else r)
    (⟨rows', fc.1⟩, fc.2)
  else if clear_type = "pending" then
    let sel := s.rows.filter (fun r => r.image_status = some "pending")
    let fc := (sel.map (fun r => r.downloaded_image_path)).foldl deleteStep (s.files, 0)
    let rows' := s.rows.map (fun r =>
      if r.image_status = some "pending" then
        { r with downloaded_image_path := none, image_status := some "not_processed" }
      else r)
    (⟨rows', fc.1⟩, fc.2)
  else if clear_type = "all_unapproved" then
    let sel := s.rows.filter (fun r =>
      r.image_status = some "declined" ∨ r.image_status = some "pending")
    let fc := (sel.map (fun r => r.downloaded_image_path)).foldl deleteStep (s.files, 0)
    let rows' := s.rows.map (fun r =>
      if r.image_status = some "declined" ∨ r.image_status = some "pending" then
        { r with downloaded_image_path := none, image_status := some "not_processed" }
      else r)
    (⟨rows', fc.1⟩, fc.2)
  else (s, 0)

/-! ## Concrete inputs used by specific claims -/

/-- Download oracle for the re-ranker misalignment scenario: only the
URL `u1` downloads successfully. -/
def c4_download : String → Option Bytes := fun u => if u = "u1" then some [1] else none

/-- First candidate of the misalignment scenario; its thumbnail `u0`
fails to download. -/
def c4_c0 : SearchResult := ⟨"candidate zero", "", "", none, none, some "u0"⟩

/-- Second candidate of the misalignment scenario; its thumbnail `u1`
downloads successfully. -/
def c4_c1 : SearchResult := ⟨"candidate one", "", "", none, none, some "u1"⟩

/-- A one-row database state: a pending product with a stored file,
confidence and source. -/
def c8_state : DBState :=
  ⟨[⟨"S1", some "pending", some "f", some 80, some "x"⟩], ["f"]⟩

/-- A two-row database state with one pending and one approved product,
for exercising the frame property of `clear_images`. -/
def c8_state2 : DBState :=
  ⟨[⟨"S1", some "pending", some "f", some 80, some "x"⟩,
    ⟨"S2", some "approved", some "fa", some 90, some "y"⟩], ["f", "fa"]⟩

end ScrapingLikeBoss

namespace ScrapingLikeBoss

/-! ## Theorems settling the claims -/

/-- Helper: a size match with unit `g` yields the digits' value as-is. -/
theorem extract_g (t : String) (ds : List Char)
    (h : searchSize t.data = some (ds, [], "g")) :
    extract_size_value t = some (digitsVal ds) := by
  simp +decide [extract_size_value, h, numVal, digitsVal]

/-- Helper: a size match with unit `ml` yields the digits' value as-is. -/
theorem extract_ml (t : String) (ds : List Char)
    (h : searchSize t.data = some (ds, [], "ml")) :
    extract_size_value t = some (digitsVal ds) := by
  simp +decide [extract_size_value, h, numVal, digitsVal]

/-- Helper: a size match with unit `kg` yields the digits' value × 1000. -/
theorem extract_kg (t : String) (ds : List Char)
    (h : searchSize t.data = some (ds, [], "kg")) :
    extract_size_value t = some ((digitsVal ds : ℚ) * 1000) := by
  simp +decide [extract_size_value, h, numVal, digitsVal]

/-- Helper: a size match with unit `l` yields the digits' value × 1000. -/
theorem extract_l (t : String) (ds : List Char)
    (h : searchSize t.data = some (ds, [], "l")) :
    extract_size_value t = some ((digitsVal ds : ℚ) * 1000) := by
  simp +decide [extract_size_value, h, numVal, digitsVal]

/-- Helper: `takeDigits` splits an all-digit run followed by a space. -/
theorem takeDigits_digits_space (ds u : List Char)
    (h : ∀ c ∈ ds, c.isDigit = true) :
    takeDigits (ds ++ ' ' :: u) = (ds, ' ' :: u) := by
  induction ds with
  | nil => simp +decide [takeDigits]
  | cons c cs ih =>
    have hc : c.isDigit = true := h c (List.mem_cons_self c cs)
    simp [takeDigits, hc, ih (fun x hx => h x (List.mem_cons_of_mem c hx))]

/-- Helper: the size pattern matches at a position starting with a
nonempty digit run followed by a space and a unit. -/
theorem matchAtPos_digits_space (d : Char) (ds u : List Char) (s : String)
    (h : ∀ c ∈ (d :: ds), c.isDigit = true)
    (hu1 : u.dropWhile Char.isWhitespace = u)
    (hu2 : unitAt u = some s) :
    matchAtPos ((d :: ds) ++ ' ' :: u) = some (d :: ds, [], s) := by
  unfold matchAtPos
  rw [takeDigits_digits_space (d :: ds) u h]
  simp +decide [List.dropWhile, hu1, hu2]

/-- Helper: `re.search` finds the size pattern on a digit run followed
by a space and a unit. -/
theorem searchSize_digits_space (d : Char) (ds u : List Char) (s : String)
    (h : ∀ c ∈ (d :: ds), c.isDigit = true)
    (hu1 : u.dropWhile Char.isWhitespace = u)
    (hu2 : unitAt u = some s) :
    searchSize ((d :: ds) ++ ' ' :: u) = some (d :: ds, [], s) := by
  have hm := matchAtPos_digits_space d ds u s h hu1 hu2
  rw [List.cons_append] at hm ⊢
  unfold searchSize
  rw [hm]

/-- C1: for every non-empty candidate list and every product, the
variant-aware scorer returns no winner whenever the single best-by-raw-
score candidate's variant-match sub-score is more negative than −20 —
with no constraint on the candidate's final score, so in particular even
when it exceeds the 35-point winner threshold. -/
theorem variant_guard_rejects_best (tol : ℚ) (cadj : String → Option ℚ)
    (retailer : String) (p : Product) (results : List SearchResult) (b : BestInfo)
    (hne : results ≠ [])
    (hb : (selectBest tol cadj retailer p results).2 = some b)
    (hv : b.variantScore < -20) :
    evaluate_results_with_variant_matching tol cadj retailer p results = none := by
  unfold evaluate_results_with_variant_matching
  rw [if_neg (by simp [hne])]
  rw [hb]
  simp [hv]

/-- Witness for C1: a vetkoek product whose best candidate says
"pancake" (variant sub-score −40) and still scores 40 > 35 from barcode,
brand and tier-1 bonuses, yet is rejected. -/
theorem variant_guard_rejects_best_witness :
    evaluate_results_with_variant_matching 5 (fun _ => none) "checkers.co.za"
      ⟨"acme vetkoek", "acme", "S1", "vetkoek", "", "1234567"⟩
      [⟨"acme pancake 1234567", "", "", none, none, none⟩] = none := by
  refine variant_guard_rejects_best 5 (fun _ => none) "checkers.co.za"
    ⟨"acme vetkoek", "acme", "S1", "vetkoek", "", "1234567"⟩
    [⟨"acme pancake 1234567", "", "", none, none, none⟩]
    ⟨⟨"acme pancake 1234567", "", "", none, none, none⟩, 40, -40⟩
    (by simp) ?_ (by norm_num)
  have hs : evalScore 5 (fun _ => none) "checkers.co.za"
      ⟨"acme vetkoek", "acme", "S1", "vetkoek", "", "1234567"⟩
      ⟨"acme pancake 1234567", "", "", none, none, none⟩ = 40 := by
    simp +decide [evalScore, barcodeScoreOf, brandScoreOf, evalVariantScore, variantScoreOf,
      critical_variants, sizeScoreOf, tierBonusOf, modifierOf,
      show extract_size_value (strLower "acme vetkoek") = none from by decide]
    norm_num
  have hv : evalVariantScore
      ⟨"acme vetkoek", "acme", "S1", "vetkoek", "", "1234567"⟩
      ⟨"acme pancake 1234567", "", "", none, none, none⟩ = -40 := by
    simp +decide [evalVariantScore, variantScoreOf, critical_variants]
  simp [selectBest, selectStep, hs, hv]

/-- C2: the three-way decision rule is total over the three actions;
confidence at or above the auto-approve threshold yields auto-approve,
at or above needs-review but below auto-approve yields manual review,
and below needs-review yields auto-reject (given needs-review ≤
auto-approve); the pre-download routing and the post-download
re-evaluation are both instances of this one rule. -/
theorem three_way_decision_rule (a rv c : ℚ) (vr : VResultIn) (har : rv ≤ a) :
    (threeWay a rv c = .auto_approve ∨ threeWay a rv c = .manual_review ∨
      threeWay a rv c = .auto_reject) ∧
    (c ≥ a → threeWay a rv c = .auto_approve) ∧
    (rv ≤ c ∧ c < a → threeWay a rv c = .manual_review) ∧
    (c < rv → threeWay a rv c = .auto_reject) ∧
    downloadRouteStatus ⟨a, rv⟩ c = statusOfAction (threeWay a rv c) ∧
    downloadRouteStatus loadedConfidenceThresholds c = statusOfAction (threeWay 70 30 c) ∧
    adjust_final_decision_action vr
      = threeWay validatorAutoApprove validatorNeedsReview (adjustedConfidence vr) := by
  refine ⟨?_, ?_, ?_, ?_, ?_, ?_, ?_⟩
  · unfold threeWay; split_ifs <;> simp
  · intro h; unfold threeWay; rw [if_pos h]
  · rintro ⟨h1, h2⟩; unfold threeWay
    rw [if_neg (not_le.mpr h2), if_pos h1]
  · intro h; unfold threeWay
    rw [if_neg (not_le.mpr (lt_of_lt_of_le h har)), if_neg (not_le.mpr h)]
  · unfold downloadRouteStatus threeWay statusOfAction; split_ifs <;> rfl
  · unfold downloadRouteStatus threeWay statusOfAction loadedConfidenceThresholds
    split_ifs <;> rfl
  · rfl

/-- Witness for C2: at thresholds 70/30 a confidence of 50 lands in
manual review. -/
theorem three_way_decision_rule_witness :
    (30 : ℚ) ≤ 70 ∧ threeWay 70 30 50 = .manual_review :=
  ⟨by norm_num,
   (three_way_decision_rule 70 30 50 ⟨1/2, 0, 100, some true⟩ (by norm_num)).2.2.1
     ⟨by norm_num, by norm_num⟩⟩

/-- C3: whenever the learned-adjustments map holds a confidence modifier
for a candidate's (lowercased) source, the candidate's score is exactly
the score without that entry plus the modifier, added verbatim. -/
theorem modifier_added_verbatim (tol : ℚ) (retailer : String) (p : Product)
    (r : SearchResult) (cadj : String → Option ℚ) (m : ℚ)
    (h : cadj (strLower r.source) = some m) :
    evalScore tol cadj retailer p r = evalScore tol (fun _ => none) retailer p r + m := by
  unfold evalScore modifierOf
  rw [h]
  ring

/-- Witness for C3: a source with a stored modifier of 7 scores exactly
7 more than with no learned adjustments. -/
theorem modifier_added_verbatim_witness :
    evalScore 5 (fun s => if s = "example.com" then some 7 else none) ""
      ⟨"tea", "acme", "S1", "", "", ""⟩ ⟨"acme tea", "", "Example.com", none, none, none⟩
    = evalScore 5 (fun _ => none) ""
        ⟨"tea", "acme", "S1", "", "", ""⟩ ⟨"acme tea", "", "Example.com", none, none, none⟩
      + 7 :=
  modifier_added_verbatim 5 ""
    ⟨"tea", "acme", "S1", "", "", ""⟩ ⟨"acme tea", "", "Example.com", none, none, none⟩
    (fun s => if s = "example.com" then some 7 else none) 7 (by decide)

/-- C5: when both the product title and the candidate title yield a
normalized size, the scorer's total is the other components plus +15
when the percentage difference is at or within the tolerance, and −10
when it is outside; the boundary case (difference exactly the tolerance)
earns the bonus. -/
theorem size_tolerance_scoring (tol : ℚ) (cadj : String → Option ℚ)
    (retailer : String) (p : Product) (r : SearchResult) (ps rs : ℚ)
    (hp : extract_size_value (strLower p.title) = some ps)
    (hr : extract_size_value (strLower r.title) = some rs)
    (hp0 : ps ≠ 0) (hr0 : rs ≠ 0) :
    evalScore tol cadj retailer p r
      = barcodeScoreOf p.barcode (strLower r.title) (strLower r.snippet)
        + brandScoreOf (strLower p.brand) (strLower r.title) (strLower r.source)
        + evalVariantScore p r
        + (if |ps - rs| / ps * 100 ≤ tol then (15 : ℚ) else -10)
        + tierBonusOf retailer
        + modifierOf cadj (strLower r.source) := by
  unfold evalScore sizeScoreOf
  rw [hp, hr]
  simp [hp0, hr0]

/-- Witness for C5: with the default 5% tolerance, 105g against 100g
(exactly 5% off) earns +15, while 106g (beyond tolerance) incurs −10. -/
theorem size_tolerance_scoring_witness :
    evalScore 5 (fun _ => none) "" ⟨"tea 100g", "", "", "", "", ""⟩
      ⟨"tea 105g", "", "", none, none, none⟩ = 15 ∧
    evalScore 5 (fun _ => none) "" ⟨"tea 100g", "", "", "", "", ""⟩
      ⟨"tea 106g", "", "", none, none, none⟩ = -10 := by
  have h100 : extract_size_value (strLower "tea 100g") = some 100 := by
    have h := extract_g (strLower "tea 100g") ['1', '0', '0'] (by decide)
    simpa [show digitsVal ['1', '0', '0'] = 100 from by decide] using h
  have h105 : extract_size_value (strLower "tea 105g") = some 105 := by
    have h := extract_g (strLower "tea 105g") ['1', '0', '5'] (by decide)
    simpa [show digitsVal ['1', '0', '5'] = 105 from by decide] using h
  have h106 : extract_size_value (strLower "tea 106g") = some 106 := by
    have h := extract_g (strLower "tea 106g") ['1', '0', '6'] (by decide)
    simpa [show digitsVal ['1', '0', '6'] = 106 from by decide] using h
  constructor
  · rw [size_tolerance_scoring 5 (fun _ => none) "" ⟨"tea 100g", "", "", "", "", ""⟩
      ⟨"tea 105g", "", "", none, none, none⟩ 100 105 h100 h105
      (by norm_num) (by norm_num)]
    simp +decide [barcodeScoreOf, brandScoreOf, evalVariantScore, variantScoreOf,
      critical_variants, tierBonusOf, modifierOf]
    norm_num
  · rw [size_tolerance_scoring 5 (fun _ => none) "" ⟨"tea 100g", "", "", "", "", ""⟩
      ⟨"tea 106g", "", "", none, none, none⟩ 100 106 h100 h106
      (by norm_num) (by norm_num)]
    simp +decide [barcodeScoreOf, brandScoreOf, evalVariantScore, variantScoreOf,
      critical_variants, tierBonusOf, modifierOf]
    norm_num

/-- C6: when the validation body raises (image cannot be opened or
decoded, or any later step fails), `validate_image` returns confidence
0.0, action manual review and an explicit validation-error reason; in
particular it never returns an approved action for such an image. -/
theorem undecodable_image_manual_review (e : String) :
    validate_image (.error e)
      = ⟨false, 0, "Validation error: " ++ e, .manual_review⟩ ∧
    (validate_image (.error e)).confidence = 0 ∧
    (validate_image (.error e)).action = .manual_review ∧
    (validate_image (.error e)).action ≠ .auto_approve := by
  refine ⟨rfl, rfl, rfl, ?_⟩
  intro h
  simp [validate_image] at h

/-- C9: the +40 barcode bonus is awarded exactly when the barcode is
strictly longer than 6 characters and occurs in the concatenated
lowercased title and snippet; when the barcode has 6 or fewer
characters the total score contains no barcode term at all. -/
theorem barcode_bonus_gate (tol : ℚ) (cadj : String → Option ℚ)
    (retailer : String) (p : Product) (r : SearchResult) :
    (barcodeScoreOf p.barcode (strLower r.title) (strLower r.snippet) = 40
      ↔ p.barcode.length > 6 ∧
          strSub p.barcode ((strLower r.title) ++ (strLower r.snippet)) = true) ∧
    (p.barcode.length ≤ 6 →
      evalScore tol cadj retailer p r
        = brandScoreOf (strLower p.brand) (strLower r.title) (strLower r.source)
          + evalVariantScore p r
          + sizeScoreOf tol (strLower p.title) (strLower r.title)
          + tierBonusOf retailer
          + modifierOf cadj (strLower r.source)) := by
  constructor
  · unfold barcodeScoreOf
    split_ifs with h
    · simp [h]
    · simp only [iff_false_intro h]
      norm_num
  · intro hle
    unfold evalScore barcodeScoreOf
    rw [if_neg (fun hc => absurd hc.1 (by omega))]
    ring

/-- Witness for C9: a 6-character barcode occurring verbatim in the
candidate title still earns no points. -/
theorem barcode_bonus_gate_witness :
    evalScore 5 (fun _ => none) "" ⟨"x", "", "", "", "", "123456"⟩
      ⟨"x 123456", "", "", none, none, none⟩ = 0 ∧
    strSub "123456" "x 123456" = true := by
  constructor
  · rw [(barcode_bonus_gate 5 (fun _ => none) "" ⟨"x", "", "", "", "", "123456"⟩
      ⟨"x 123456", "", "", none, none, none⟩).2 (by decide)]
    simp +decide [brandScoreOf, evalVariantScore, variantScoreOf, critical_variants,
      sizeScoreOf, tierBonusOf, modifierOf,
      show extract_size_value (strLower "x") = none from by decide]
  · decide

/-- C7: the OCR-derived confidence boost is the additive combination of
+0.15 for a brand substring hit, +0.10 each for the variant-option and
variant-title substring hits, and — when at least 2 title words longer
than 3 characters match — +0.05 per matching word capped at three words
(so at +0.15), with the total capped at +0.30. -/
theorem ocr_boost_additive (p : Product) (segments : List String) :
    detect_text_boost p segments =
      min ((if (strLower p.brand) ≠ "" ∧
               strSub (strLower p.brand) (strLower (String.intercalate " " segments))
             then (3/20 : ℚ) else 0)
         + (if (strLower p.variant_option) ≠ "" ∧
               strSub (strLower p.variant_option) (strLower (String.intercalate " " segments))
             then (1/10 : ℚ) else 0)
         + (if (strLower p.variant_title) ≠ "" ∧
               strSub (strLower p.variant_title) (strLower (String.intercalate " " segments))
             then (1/10 : ℚ) else 0)
         + (if (((splitWs (strLower p.title)).filter (fun w => w.length > 3)).filter
                 (fun w => strSub w (strLower (String.intercalate " " segments)))).length ≥ 2
             then (1/20 : ℚ) *
               ((min (((splitWs (strLower p.title)).filter (fun w => w.length > 3)).filter
                   (fun w => strSub w (strLower (String.intercalate " " segments)))).length 3 : ℕ) : ℚ)
             else 0))
        (3/10) := by
  simp only [detect_text_boost, detect_text_core]
  split_ifs <;> norm_num

/-- C10: the size extractor conflates mass and volume: an all-digit run
`n` followed by " g" and by " ml" extract to the same value (likewise
" kg" and " l", both × 1000); consequently a candidate whose size
matches numerically in the other unit family earns the +15 size bonus. -/
theorem unit_conflation_g_ml (ds : List Char) (tol : ℚ)
    (h1 : ds ≠ []) (h2 : ∀ c ∈ ds, c.isDigit = true)
    (h0 : digitsVal ds ≠ 0) (htol : 0 ≤ tol) :
    extract_size_value (String.mk (ds ++ [' ', 'g']))
      = extract_size_value (String.mk (ds ++ [' ', 'm', 'l'])) ∧
    extract_size_value (String.mk (ds ++ [' ', 'g'])) = some (digitsVal ds) ∧
    extract_size_value (String.mk (ds ++ [' ', 'k', 'g']))
      = extract_size_value (String.mk (ds ++ [' ', 'l'])) ∧
    extract_size_value (String.mk (ds ++ [' ', 'k', 'g']))
      = some ((digitsVal ds : ℚ) * 1000) ∧
    sizeScoreOf tol (String.mk (ds ++ [' ', 'g'])) (String.mk (ds ++ [' ', 'm', 'l'])) = 15 := by
  obtain ⟨d, ds', rfl⟩ := List.exists_cons_of_ne_nil h1
  have hg : searchSize ((d :: ds') ++ ' ' :: ['g']) = some (d :: ds', [], "g") :=
    searchSize_digits_space d ds' ['g'] "g" h2 (by decide) (by decide)
  have hml : searchSize ((d :: ds') ++ ' ' :: ['m', 'l']) = some (d :: ds', [], "ml") :=
    searchSize_digits_space d ds' ['m', 'l'] "ml" h2 (by decide) (by decide)
  have hkg : searchSize ((d :: ds') ++ ' ' :: ['k', 'g']) = some (d :: ds', [], "kg") :=
    searchSize_digits_space d ds' ['k', 'g'] "kg" h2 (by decide) (by decide)
  have hl : searchSize ((d :: ds') ++ ' ' :: ['l']) = some (d :: ds', [], "l") :=
    searchSize_digits_space d ds' ['l'] "l" h2 (by decide) (by decide)
  have eg : extract_size_value (String.mk ((d :: ds') ++ [' ', 'g']))
      = some (digitsVal (d :: ds')) := extract_g _ _ hg
  have eml : extract_size_value (String.mk ((d :: ds') ++ [' ', 'm', 'l']))
      = some (digitsVal (d :: ds')) := extract_ml _ _ hml
  have ekg : extract_size_value (String.mk ((d :: ds') ++ [' ', 'k', 'g']))
      = some ((digitsVal (d :: ds') : ℚ) * 1000) := extract_kg _ _ hkg
  have el : extract_size_value (String.mk ((d :: ds') ++ [' ', 'l']))
      = some ((digitsVal (d :: ds') : ℚ) * 1000) := extract_l _ _ hl
  have h0q : (digitsVal (d :: ds') : ℚ) ≠ 0 := Nat.cast_ne_zero.mpr h0
  refine ⟨by rw [eg, eml], eg, by rw [ekg, el], ekg, ?_⟩
  simp only [sizeScoreOf, eg, eml]
  simp [h0q, sub_self, abs_zero, htol]

/-- Witness for C10: "250 g" and "250 ml" extract to the same value 250,
"250 kg" and "250 l" both to 250000, and the g-vs-ml pair earns +15. -/
theorem unit_conflation_g_ml_witness :
    extract_size_value (String.mk (['2', '5', '0'] ++ [' ', 'g']))
      = extract_size_value (String.mk (['2', '5', '0'] ++ [' ', 'm', 'l'])) ∧
    extract_size_value (String.mk (['2', '5', '0'] ++ [' ', 'g']))
      = some (digitsVal ['2', '5', '0']) ∧
    extract_size_value (String.mk (['2', '5', '0'] ++ [' ', 'k', 'g']))
      = extract_size_value (String.mk (['2', '5', '0'] ++ [' ', 'l'])) ∧
    extract_size_value (String.mk (['2', '5', '0'] ++ [' ', 'k', 'g']))
      = some ((digitsVal ['2', '5', '0'] : ℚ) * 1000) ∧
    sizeScoreOf 5 (String.mk (['2', '5', '0'] ++ [' ', 'g']))
      (String.mk (['2', '5', '0'] ++ [' ', 'm', 'l'])) = 15 :=
  unit_conflation_g_ml ['2', '5', '0'] 5 (by decide) (by decide) (by decide) (by norm_num)

/-- C4: evaluation at the failing input.  Two candidates; the first one's
thumbnail `u0` fails to download, the second one's `u1` succeeds, so the
claim requires the successfully-ranked second candidate first and the
failed first candidate appended after (`[c4_c1, c4_c0]`).  The code
instead looks the single rank index 0 (an index into the successful-
thumbnails list) up in `idx_map` (indexed over all collected URLs) and
returns `[c4_c0, c4_c1]`: the failed-download candidate is placed first
as the "ranked" one. -/
theorem rank_misaligned_on_failed_download :
    rank_results_with_clip c4_download (fun _ _ => 0) ["t"] [c4_c0, c4_c1]
      = [c4_c0, c4_c1] ∧
    rank_results_with_clip c4_download (fun _ _ => 0) ["t"] [c4_c0, c4_c1]
      ≠ [c4_c1, c4_c0] ∧
    c4_download "u0" = none ∧
    c4_download "u1" = some [1] ∧
    thumbUrlOf c4_c0 = some "u0" ∧
    thumbUrlOf c4_c1 = some "u1" := by
  decide

/-- C8 counterexample: clearing scope `pending` on a state with one
pending product resets its status and nulls its path, but leaves its
stored confidence (80) and source (`x`) in place — they are not nulled
together with the path as the claim requires. -/
theorem clear_pending_counterexample :
    (clear_images c8_state "pending").1.rows
      = [⟨"S1", some "not_processed", none, some 80, some "x"⟩] ∧
    ((clear_images c8_state "pending").1.rows.getD 0
        ⟨"", none, none, none, none⟩).confidence = some 80 ∧
    ((clear_images c8_state "pending").1.rows.getD 0
        ⟨"", none, none, none, none⟩).source_retailer = some "x" ∧
    ((clear_images c8_state "pending").1.rows.getD 0
        ⟨"", none, none, none, none⟩).confidence ≠ none := by
  decide

/-- Helper: the file component of the deletion fold keeps exactly the
files not named (with a nonempty path) by the processed rows. -/
theorem foldl_deleteStep_mem (ps : List (Option String)) (fs : List String)
    (c : ℕ) (f : String) :
    f ∈ (ps.foldl deleteStep (fs, c)).1 ↔
      f ∈ fs ∧ ∀ p ∈ ps, ¬(p = some f ∧ f ≠ "") := by
  induction ps generalizing fs c with
  | nil => simp
  | cons p ps ih =>
    rw [List.foldl_cons, ih]
    match p with
    | none => simp [deleteStep]
    | some path =>
      by_cases hpe : path ≠ "" ∧ path ∈ fs
      · rw [show deleteStep (fs, c) (some path) = (fs.filter (fun x => x ≠ path), c + 1)
          from by simp [deleteStep, hpe]]
        simp only [List.mem_filter, List.forall_mem_cons, decide_eq_true_eq,
          Option.some.injEq]
        have key : ¬(path = f ∧ f ≠ "") ↔ f ≠ path := by
          constructor
          · intro hn hfp
            exact hn ⟨hfp.symm, hfp ▸ hpe.1⟩
          · rintro hne ⟨hpf, _⟩
            exact hne hpf.symm
        rw [key]
        tauto
      · rw [show deleteStep (fs, c) (some path) = (fs, c) from by simp [deleteStep, hpe]]
        simp only [List.forall_mem_cons, Option.some.injEq]
        constructor
        · rintro ⟨hf, hr⟩
          refine ⟨hf, ?_, hr⟩
          rintro ⟨hpf, hf0⟩
          rcases not_and_or.mp hpe with h0 | hmem
          · exact hf0 (hpf ▸ (not_not.mp h0))
          · exact hmem (hpf ▸ hf)
        · rintro ⟨hf, _, hr⟩
          exact ⟨hf, hr⟩

/-- C8 amended: clearing scope `pending` maps each pending row to the
same row with path nulled and status reset to `not_processed` (keeping
its confidence and source), leaves every non-pending row unchanged, and
deletes exactly the files referenced by a pending row's nonempty path. -/
theorem clear_pending_frame (s : DBState) (f : String) :
    ((clear_images s "pending").1.rows
       = s.rows.map (fun r =>
           if r.image_status = some "pending" then
             { r with downloaded_image_path := none,
                      image_status := some "not_processed" }
           else r)) ∧
    (∀ r ∈ s.rows, r.image_status ≠ some "pending" →
       r ∈ (clear_images s "pending").1.rows) ∧
    (∀ r ∈ s.rows, r.image_status = some "pending" →
       { r with downloaded_image_path := none, image_status := some "not_processed" }
         ∈ (clear_images s "pending").1.rows) ∧
    (f ∈ (clear_images s "pending").1.files ↔
       f ∈ s.files ∧
         ∀ r ∈ s.rows, ¬(r.image_status = some "pending" ∧
             r.downloaded_image_path = some f ∧ f ≠ "")) := by
  have hrows : (clear_images s "pending").1.rows
      = s.rows.map (fun r =>
          if r.image_status = some "pending" then
            { r with downloaded_image_path := none,
                     image_status := some "not_processed" }
          else r) := by
    simp +decide [clear_images]
  have hfiles : (clear_images s "pending").1.files
      = (((s.rows.filter (fun r => r.image_status = some "pending")).map
           (fun r => r.downloaded_image_path)).foldl deleteStep (s.files, 0)).1 := by
    simp +decide [clear_images]
  refine ⟨hrows, ?_, ?_, ?_⟩
  · intro r hr hnp
    rw [hrows]
    have := List.mem_map_of_mem (fun r : DBRow =>
      if r.image_status = some "pending" then
        { r with downloaded_image_path := none,
                 image_status := some "not_processed" }
      else r) hr
    simpa [hnp] using this
  · intro r hr hp
    rw [hrows]
    have := List.mem_map_of_mem (fun r : DBRow =>
      if r.image_status = some "pending" then
        { r with downloaded_image_path := none,
                 image_status := some "not_processed" }
      else r) hr
    simpa [hp] using this
  · rw [hfiles, foldl_deleteStep_mem]
    constructor
    · rintro ⟨hf, hall⟩
      refine ⟨hf, ?_⟩
      rintro r hr ⟨hp, hpath, hf0⟩
      exact hall r.downloaded_image_path
        (List.mem_map_of_mem _ (List.mem_filter.mpr ⟨hr, by simp [hp]⟩)) ⟨hpath, hf0⟩
    · rintro ⟨hf, hall⟩
      refine ⟨hf, ?_⟩
      intro q hq
      rcases List.mem_map.mp hq with ⟨r, hrf, rfl⟩
      rcases List.mem_filter.mp hrf with ⟨hr, hpend⟩
      rintro ⟨hpath, hf0⟩
      exact hall r hr ⟨by simpa using hpend, hpath, hf0⟩

/-- Witness for C8: on a state with a pending and an approved row, the
rows come out as characterized (approved row unchanged, pending row
reset keeping confidence and source), the approved row's file `fa`
survives, and the pending row's file `f` is deleted. -/
theorem clear_pending_frame_witness :
    (clear_images c8_state2 "pending").1.rows
      = [⟨"S1", some "not_processed", none, some 80, some "x"⟩,
         ⟨"S2", some "approved", some "fa", some 90, some "y"⟩] ∧
    "fa" ∈ (clear_images c8_state2 "pending").1.files ∧
    "f" ∉ (clear_images c8_state2 "pending").1.files := by
  have ha := clear_pending_frame c8_state2 "fa"
  have hf := clear_pending_frame c8_state2 "f"
  refine ⟨?_, ?_, ?_⟩
  · rw [ha.1]
    decide
  · exact (ha.2.2.2).mpr ⟨by decide, by decide⟩
  · intro hmem
    obtain ⟨-, hall⟩ := (hf.2.2.2).mp hmem
    exact (hall ⟨"S1", some "pending", some "f", some 80, some "x"⟩ (by decide)) (by decide)

end ScrapingLikeBoss
